import Mathlib

/-!
Verification of the text-analysis core of the "Lazy C" editor extension
(src/extension.ts): header inference, prototype synthesis, the semicolon
heuristic, the diagnostic scanner and the library reference lookup.

The TypeScript code works line-by-line on the current document text
(`document.getText().split('\n')`); a buffer is therefore modelled as a
`List String` of lines.  The JavaScript regular expressions used by the
code are transcribed as executable character-list scanners; each
definition's doc comment names the source function and regex it embeds.
-/

/-- JavaScript `\s` / `String.prototype.trim` whitespace class:
space, tab, LF, VT, FF, CR, NBSP, and the Unicode space separators,
line/paragraph separators and BOM. -/
def jsWs (c : Char) : Bool :=
  c.val = 9 || c.val = 10 || c.val = 11 || c.val = 12 || c.val = 13 ||
  c.val = 32 || c.val = 0xa0 || c.val = 0x1680 ||
  (0x2000 ≤ c.val && c.val ≤ 0x200a) ||
  c.val = 0x2028 || c.val = 0x2029 || c.val = 0x202f || c.val = 0x205f ||
  c.val = 0x3000 || c.val = 0xfeff

/-- JavaScript `\w` word-character class `[A-Za-z0-9_]`. -/
def isWordChar (c : Char) : Bool :=
  ('a' ≤ c && c ≤ 'z') || ('A' ≤ c && c ≤ 'Z') || ('0' ≤ c && c ≤ '9') || c = '_'

/-- The identifier head class `[a-zA-Z_]` used by the call and definition
regexes. -/
def isIdentStart (c : Char) : Bool :=
  ('a' ≤ c && c ≤ 'z') || ('A' ≤ c && c ≤ 'Z') || c = '_'

/-- JavaScript `.` (dot without the `s` flag): any character except a line
terminator. -/
def dotChar (c : Char) : Bool :=
  !(c = '\n' || c = '\r' || c.val = 0x2028 || c.val = 0x2029)

/-- Drop trailing JavaScript whitespace. -/
def dropTrailingWs (l : List Char) : List Char :=
  (l.reverse.dropWhile jsWs).reverse

/-- JavaScript `String.prototype.trim`. -/
def jsTrim (l : List Char) : List Char :=
  dropTrailingWs (l.dropWhile jsWs)

/-- `p` occurs in `l` starting at index `i` (the JS `indexOf`/`includes`
notion of an occurrence). -/
def occursAt (p l : List Char) (i : Nat) : Prop :=
  p <+: l.drop i

instance (p l : List Char) (i : Nat) : Decidable (occursAt p l i) := by
  unfold occursAt; infer_instance

/-- JavaScript `String.prototype.indexOf`: index of the first occurrence of
`p` in `l`, `none` when absent (`-1` in JS). -/
def firstIdx : List Char → List Char → Option Nat
  | p, [] => if p = [] then some 0 else none
  | p, c :: rest =>
    if p <+: (c :: rest) then some 0
    else (firstIdx p rest).map (· + 1)

/-- JavaScript `String.prototype.includes`. -/
def containsSub (p l : List Char) : Bool :=
  (firstIdx p l).isSome

/-- The part of a line before its first `//`, the whole line when there is
none.  This is the `const checkLine = commentIndex !== -1 ?
line.substring(0, commentIndex) : line` idiom used throughout the source. -/
def stripComment : List Char → List Char
  | [] => []
  | c :: rest =>
    if c = '/' ∧ rest.head? = some '/' then [] else c :: stripComment rest

theorem firstIdx_spec {p l : List Char} {i : Nat} (h : firstIdx p l = some i) :
    occursAt p l i := by
  induction l generalizing i with
  | nil =>
    unfold firstIdx at h
    by_cases hp : p = [] <;> simp [hp] at h
    simp [hp, ← h, occursAt]
  | cons c rest ih =>
    unfold firstIdx at h
    by_cases hpre : p <+: (c :: rest)
    · simp [hpre] at h
      simpa [occursAt, ← h] using hpre
    · simp [hpre] at h
      obtain ⟨j, hj, rfl⟩ := h
      simpa [occursAt] using ih hj

theorem firstIdx_le {p l : List Char} {i j : Nat} (h : firstIdx p l = some i)
    (hj : occursAt p l j) : i ≤ j := by
  induction l generalizing i j with
  | nil =>
    unfold firstIdx at h
    by_cases hp : p = [] <;> simp [hp] at h
    omega
  | cons c rest ih =>
    unfold firstIdx at h
    by_cases hpre : p <+: (c :: rest)
    · simp [hpre] at h; omega
    · simp [hpre] at h
      obtain ⟨i', hi', rfl⟩ := h
      cases j with
      | zero => exact absurd hj hpre
      | succ j' =>
        have : occursAt p rest j' := by simpa [occursAt] using hj
        exact Nat.succ_le_succ (ih hi' this)

theorem firstIdx_isSome_of_occursAt {p l : List Char} {j : Nat}
    (hj : occursAt p l j) : (firstIdx p l).isSome := by
  induction l generalizing j with
  | nil =>
    have : p = [] := by
      have := hj.length_le
      simp [occursAt] at hj ⊢
      cases p with
      | nil => rfl
      | cons x xs => simp [List.IsPrefix] at hj
    simp [firstIdx, this]
  | cons c rest ih =>
    unfold firstIdx
    by_cases hpre : p <+: (c :: rest)
    · simp [hpre]
    · simp only [hpre, if_false]
      cases j with
      | zero => exact absurd hj hpre
      | succ j' =>
        have : occursAt p rest j' := by simpa [occursAt] using hj
        have := ih this
        simpa [Option.isSome_map] using this

theorem occursAt_append_left {p q l : List Char} {i : Nat}
    (h : occursAt (p ++ q) l i) : occursAt p l i := by
  unfold occursAt at h ⊢
  exact (List.prefix_append p q).trans h

/-- One attempted match of `/#include\s*[<"](.+?)[>"]/` at the very start of
`l`: the literal `#include`, optional whitespace, an opening `<` or `"`, then
the lazily captured group — the shortest non-empty run of characters whose
next character is `>` or `"`. -/
def includeCaptureHere (l : List Char) : Option (List Char) :=
  if "#include".data.isPrefixOf l then
    match (l.drop 8).dropWhile jsWs with
    | d :: r3 =>
      if d = '<' || d = '"' then
        match r3 with
        | e :: r4 =>
          let cap := e :: r4.takeWhile (fun x => !(x = '>' || x = '"'))
          if (r4.dropWhile (fun x => !(x = '>' || x = '"'))).isEmpty then none
          else some cap
        | [] => none
      else none
    | [] => none
  else none

/-- First (leftmost) match of `/#include\s*[<"](.+?)[>"]/` in the line,
returning the captured header name — the `line.match(...)` call of
`autoAddRequiredHeaders`. -/
def includeCapture : List Char → Option (List Char)
  | [] => includeCaptureHere []
  | c :: rest =>
    match includeCaptureHere (c :: rest) with
    | some cap => some cap
    | none => includeCapture rest

/-- All identifiers of call-like tokens in one line: the global scan
`/\b([a-zA-Z_]\w*)\s*\(/g` of `autoAddRequiredHeaders`.  `prevW` records
whether the previous character was a word character (`\b` holds exactly when
it was not).  The regex engine restarts each scan after the consumed `(`;
restarting one character later with the boundary flag is equivalent, because
no new match can begin inside a matched identifier (no boundary there), nor
at the whitespace or `(` that follow it (not identifier heads). -/
def callsAux : List Char → Bool → List String
  | [], _ => []
  | c :: rest, prevW =>
    if !prevW && isIdentStart c &&
        ((rest.dropWhile isWordChar).dropWhile jsWs).head? == some '(' then
      String.mk (c :: rest.takeWhile isWordChar) :: callsAux rest (isWordChar c)
    else callsAux rest (isWordChar c)

/-- `FUNCTION_TO_HEADER`: the catalog mapping each C standard-library
function to its required header. -/
def FUNCTION_TO_HEADER : List (String × String) :=
  [("printf", "stdio.h"), ("scanf", "stdio.h"), ("fprintf", "stdio.h"),
   ("fscanf", "stdio.h"), ("fopen", "stdio.h"), ("fclose", "stdio.h"),
   ("fgets", "stdio.h"), ("fputs", "stdio.h"), ("fread", "stdio.h"),
   ("fwrite", "stdio.h"), ("sprintf", "stdio.h"), ("sscanf", "stdio.h"),
   ("puts", "stdio.h"), ("getchar", "stdio.h"), ("putchar", "stdio.h"),
   ("perror", "stdio.h"), ("fgetc", "stdio.h"), ("fputc", "stdio.h"),
   ("fseek", "stdio.h"), ("ftell", "stdio.h"),
   ("malloc", "stdlib.h"), ("calloc", "stdlib.h"), ("realloc", "stdlib.h"),
   ("free", "stdlib.h"), ("exit", "stdlib.h"), ("atoi", "stdlib.h"),
   ("atof", "stdlib.h"), ("rand", "stdlib.h"), ("srand", "stdlib.h"),
   ("abs", "stdlib.h"), ("system", "stdlib.h"), ("getenv", "stdlib.h"),
   ("strcpy", "string.h"), ("strncpy", "string.h"), ("strcat", "string.h"),
   ("strncat", "string.h"), ("strlen", "string.h"), ("strcmp", "string.h"),
   ("strncmp", "string.h"), ("strchr", "string.h"), ("strstr", "string.h"),
   ("memcpy", "string.h"), ("memset", "string.h"), ("memmove", "string.h"),
   ("memcmp", "string.h"), ("strdup", "string.h"),
   ("sqrt", "math.h"), ("pow", "math.h"), ("sin", "math.h"), ("cos", "math.h"),
   ("tan", "math.h"), ("floor", "math.h"), ("ceil", "math.h"),
   ("fabs", "math.h"), ("exp", "math.h"), ("log", "math.h"),
   ("round", "math.h"), ("fmod", "math.h"),
   ("time", "time.h"), ("clock", "time.h"), ("difftime", "time.h"),
   ("strftime", "time.h"),
   ("isalpha", "ctype.h"), ("isdigit", "ctype.h"), ("isalnum", "ctype.h"),
   ("toupper", "ctype.h"), ("tolower", "ctype.h"), ("isspace", "ctype.h"),
   ("ispunct", "ctype.h"), ("isupper", "ctype.h"), ("islower", "ctype.h")]

/-- The object lookup `FUNCTION_TO_HEADER[functionName]` (keys are unique). -/
def lookupHeader (f : String) : Option String :=
  (FUNCTION_TO_HEADER.find? (fun p => p.1 == f)).map (·.2)

/-- `UNSAFE_FUNCTIONS`: unsafe function → safer alternative, in declaration
order (the order of `Object.entries`). -/
def UNSAFE_FUNCTIONS : List (String × String) :=
  [("gets", "fgets"), ("strcpy", "strncpy"), ("strcat", "strncat"),
   ("sprintf", "snprintf")]

/-- `lines[i].trim().startsWith('#include')` — the test used by both
`autoAddRequiredHeaders` (insertion point) and `autoGeneratePrototypes`
(last include line). -/
def isIncludeLine (l : String) : Bool :=
  "#include".data.isPrefixOf (jsTrim l.data)

/-- The `for` loop of `autoAddRequiredHeaders` and `autoGeneratePrototypes`
that remembers the index of the last line satisfying `isIncludeLine`
(`-1` / "not found" is modelled as `none`). -/
def lastIncludeIdxAux : List String → Nat → Option Nat → Option Nat
  | [], _, acc => acc
  | l :: rest, i, acc =>
    lastIncludeIdxAux rest (i + 1) (if isIncludeLine l then some i else acc)

def lastIncludeIdx (lines : List String) : Option Nat :=
  lastIncludeIdxAux lines 0 none

/-- Headers already present: for every line, the captured group of its first
`/#include\s*[<"](.+?)[>"]/` match, collected into the `includedHeaders`
set (modelled as a list, membership being all that is used). -/
def includedHeaders (lines : List String) : List String :=
  lines.filterMap (fun l => (includeCapture l.data).map String.mk)

/-- Every call-like identifier of the buffer, with each line's trailing
`//` comment stripped first, in scan order. -/
def bufferCalls (lines : List String) : List String :=
  lines.flatMap (fun l => callsAux (stripComment l.data) false)

/-- The `requiredHeaders` set of `autoAddRequiredHeaders`: headers of
cataloged called functions that are not already included.  `List.dedup`
models the `Set` (only membership and the deduplicated element collection
are consumed). -/
def requiredHeaders (lines : List String) : List String :=
  (((bufferCalls lines).filterMap lookupHeader).filter
    (fun h => !(includedHeaders lines).contains h)).dedup

/-- `insertionLine`: one past the last include line, or 0. -/
def insertionLine (lines : List String) : Nat :=
  match lastIncludeIdx lines with
  | some i => i + 1
  | none => 0

/-- `Array.from(requiredHeaders).sort()`: the missing headers,
lexicographically sorted (on the deduplicated set the sorted list is
unique, so insertion sort models JS `Array.prototype.sort`). -/
def sortedMissingHeaders (lines : List String) : List String :=
  (requiredHeaders lines).insertionSort (· ≤ ·)

/-- Inserting a block of whole lines at line index `n`, column 0 — the
effect of `editBuilder.insert(new vscode.Position(n, 0), text)` when `text`
is a newline-terminated sequence of lines. -/
def insertBlock (n : Nat) (block lines : List String) : List String :=
  lines.take n ++ block ++ lines.drop n

/-- The text of one generated include directive:
`` `#include <${h}>` ``. -/
def mkIncludeLine (h : String) : String :=
  "#include <" ++ h ++ ">"

/-- `autoAddRequiredHeaders` as a buffer transformation: compute the missing
headers; when none, leave the buffer untouched, otherwise insert
`#include <H>` lines (sorted) as one block at the insertion line. -/
def autoAddRequiredHeaders (lines : List String) : List String :=
  if requiredHeaders lines = [] then lines
  else
    insertBlock (insertionLine lines)
      ((sortedMissingHeaders lines).map mkIncludeLine) lines

/-- A line containing no `(` at all yields no call-like tokens. -/
theorem callsAux_eq_nil {l : List Char} (h : '(' ∉ l) (b : Bool) :
    callsAux l b = [] := by
  induction l generalizing b with
  | nil => rfl
  | cons c rest ih =>
    have hrest : '(' ∉ rest := fun hm => h (List.mem_cons_of_mem _ hm)
    unfold callsAux
    have hhead : ((rest.dropWhile isWordChar).dropWhile jsWs).head? ≠ some '(' := by
      intro hcontra
      have hmem : '(' ∈ (rest.dropWhile isWordChar).dropWhile jsWs :=
        List.mem_of_mem_head? (by simp [hcontra])
      have hsub : ((rest.dropWhile isWordChar).dropWhile jsWs).Sublist rest :=
        (List.dropWhile_sublist _).trans (List.dropWhile_sublist _)
      exact hrest (hsub.mem hmem)
    have : (((rest.dropWhile isWordChar).dropWhile jsWs).head? == some '(') = false := by
      simpa using hhead
    simp [this, ih hrest]

/-- `stripComment` never invents characters: its result is a prefix of the
line. -/
theorem stripComment_prefix (l : List Char) : stripComment l <+: l := by
  induction l with
  | nil => simp [stripComment]
  | cons c rest ih =>
    unfold stripComment
    by_cases h : c = '/' ∧ rest.head? = some '/'
    · simp [h]
    · simpa [h] using ih

/-- Every header value of the catalog contains no `(` (so a generated
include line can never look like a function call) and is captured back
verbatim by the include regex from its generated include line. -/
theorem header_values_wellformed :
    ∀ p ∈ FUNCTION_TO_HEADER,
      '(' ∉ p.2.data ∧ includeCapture (mkIncludeLine p.2).data = some p.2.data := by
  decide

theorem lookupHeader_mem {f h : String} (hl : lookupHeader f = some h) :
    ∃ p ∈ FUNCTION_TO_HEADER, p.2 = h := by
  unfold lookupHeader at hl
  cases hf : FUNCTION_TO_HEADER.find? (fun p => p.1 == f) with
  | none => simp [hf] at hl
  | some p =>
    refine ⟨p, List.mem_of_find?_eq_some hf, ?_⟩
    simp [hf] at hl
    exact hl

theorem mem_insertBlock {n : Nat} {block lines : List String} {a : String} :
    a ∈ insertBlock n block lines ↔ a ∈ block ∨ a ∈ lines := by
  unfold insertBlock
  constructor
  · intro h
    rcases List.mem_append.mp h with h1 | h2
    · rcases List.mem_append.mp h1 with h3 | h4
      · exact Or.inr (List.mem_of_mem_take h3)
      · exact Or.inl h4
    · exact Or.inr (List.mem_of_mem_drop h2)
  · intro h
    rcases h with h | h
    · exact List.mem_append.mpr (Or.inl (List.mem_append.mpr (Or.inr h)))
    · rcases List.mem_append.mp ((List.take_append_drop n lines).symm ▸ h) with h1 | h2
      · exact List.mem_append.mpr (Or.inl (List.mem_append.mpr (Or.inl h1)))
      · exact List.mem_append.mpr (Or.inr h2)

theorem mem_requiredHeaders {lines : List String} {h : String} :
    h ∈ requiredHeaders lines ↔
      (∃ f ∈ bufferCalls lines, lookupHeader f = some h) ∧
        h ∉ includedHeaders lines := by
  unfold requiredHeaders
  rw [List.mem_dedup, List.mem_filter, List.mem_filterMap]
  constructor
  · rintro ⟨⟨f, hf, hl⟩, hc⟩
    refine ⟨⟨f, hf, hl⟩, ?_⟩
    intro hmem
    simp [List.elem_iff, hmem] at hc
  · rintro ⟨⟨f, hf, hl⟩, hnc⟩
    exact ⟨⟨f, hf, hl⟩, by simp [List.elem_iff, hnc]⟩

theorem mem_sortedMissingHeaders {lines : List String} {h : String} :
    h ∈ sortedMissingHeaders lines ↔ h ∈ requiredHeaders lines :=
  (List.perm_insertionSort _ _).mem_iff

theorem includedHeaders_mono {lines lines' : List String} {h : String}
    (hsub : ∀ l ∈ lines, l ∈ lines') (hm : h ∈ includedHeaders lines) :
    h ∈ includedHeaders lines' := by
  unfold includedHeaders at hm ⊢
  rw [List.mem_filterMap] at hm ⊢
  obtain ⟨l, hl, hcap⟩ := hm
  exact ⟨l, hsub l hl, hcap⟩

theorem lastIncludeIdxAux_append_singleton (xs : List String) (x : String) :
    ∀ (i : Nat) (acc : Option Nat),
      lastIncludeIdxAux (xs ++ [x]) i acc =
        if isIncludeLine x then some (i + xs.length)
        else lastIncludeIdxAux xs i acc := by
  induction xs with
  | nil =>
    intro i acc
    by_cases hx : isIncludeLine x <;> simp [lastIncludeIdxAux, hx]
  | cons l rest ih =>
    intro i acc
    by_cases hx : isIncludeLine x <;>
      simp [lastIncludeIdxAux, ih, hx, Nat.add_assoc, Nat.add_comm 1 rest.length]

theorem lastIncludeIdx_append_singleton (xs : List String) (x : String) :
    lastIncludeIdx (xs ++ [x]) =
      if isIncludeLine x then some xs.length else lastIncludeIdx xs := by
  unfold lastIncludeIdx
  simpa using lastIncludeIdxAux_append_singleton xs x 0 none

theorem lastIncludeIdx_eq_none_iff (lines : List String) :
    lastIncludeIdx lines = none ↔ ∀ l ∈ lines, isIncludeLine l = false := by
  induction lines using List.reverseRecOn with
  | nil => simp [lastIncludeIdx, lastIncludeIdxAux]
  | append_singleton xs x ih =>
    rw [lastIncludeIdx_append_singleton]
    by_cases hx : isIncludeLine x
    · simp only [hx, if_true]
      constructor
      · intro h; cases h
      · intro hall
        have := hall x (by simp)
        rw [hx] at this; cases this
    · have hx' : isIncludeLine x = false := by simpa using hx
      simp only [hx', Bool.false_eq_true, if_false]
      rw [ih]
      constructor
      · intro hall l hl
        rcases List.mem_append.mp hl with h | h
        · exact hall l h
        · simp at h; subst h; simpa using hx
      · intro hall l hl
        exact hall l (List.mem_append.mpr (Or.inl hl))

theorem lastIncludeIdx_spec {lines : List String} {k : Nat}
    (h : lastIncludeIdx lines = some k) :
    ∃ hk : k < lines.length,
      isIncludeLine lines[k] = true ∧
        ∀ j (hj : j < lines.length), k < j → isIncludeLine lines[j] = false := by
  induction lines using List.reverseRecOn with
  | nil => simp [lastIncludeIdx, lastIncludeIdxAux] at h
  | append_singleton xs x ih =>
    rw [lastIncludeIdx_append_singleton] at h
    by_cases hx : isIncludeLine x
    · simp only [hx, if_true, Option.some.injEq] at h
      subst h
      refine ⟨by simp, ?_, ?_⟩
      · simpa using hx
      · intro j hj hgt
        simp [List.length_append] at hj
        omega
    · simp only [hx, if_false] at h
      obtain ⟨hk, hinc, hafter⟩ := ih h
      refine ⟨by simp [List.length_append]; omega, ?_, ?_⟩
      · rwa [List.getElem_append_left hk]
      · intro j hj hgt
        simp [List.length_append] at hj
        rcases Nat.lt_or_ge j xs.length with hlt | hge
        · rw [List.getElem_append_left hlt]
          exact hafter j hlt hgt
        · have hj' : j = xs.length := by omega
          have heq : (xs ++ [x])[j] = x := by
            subst hj'; simp
          rw [heq]
          simpa using hx

theorem requiredHeaders_sub_values {lines : List String} {h : String}
    (hm : h ∈ requiredHeaders lines) : ∃ p ∈ FUNCTION_TO_HEADER, p.2 = h := by
  obtain ⟨⟨f, hf, hl⟩, -⟩ := mem_requiredHeaders.mp hm
  exact lookupHeader_mem hl

/-- A generated `#include <H>` line contains no call-like token. -/
theorem calls_of_mkIncludeLine {h : String}
    (hmem : ∃ p ∈ FUNCTION_TO_HEADER, p.2 = h) :
    callsAux (stripComment (mkIncludeLine h).data) false = [] := by
  obtain ⟨p, hp, rfl⟩ := hmem
  have hpar : '(' ∉ p.2.data := (header_values_wellformed p hp).1
  apply callsAux_eq_nil
  intro hc
  have hsub : stripComment (mkIncludeLine p.2).data <+: (mkIncludeLine p.2).data :=
    stripComment_prefix _
  have hmem' : '(' ∈ (mkIncludeLine p.2).data := hsub.sublist.mem hc
  rw [mkIncludeLine, String.data_append, String.data_append] at hmem'
  rcases List.mem_append.mp hmem' with h1 | h2
  · rcases List.mem_append.mp h1 with h3 | h4
    · exact absurd h3 (by decide)
    · exact hpar h4
  · exact absurd h2 (by decide)

/-- After one run of header inference every header a cataloged call requires
is present, so the computed missing-header set of a second run is empty. -/
theorem requiredHeaders_autoAdd (lines : List String) :
    requiredHeaders (autoAddRequiredHeaders lines) = [] := by
  by_cases h0 : requiredHeaders lines = []
  · rw [autoAddRequiredHeaders, if_pos h0]; exact h0
  · rw [autoAddRequiredHeaders, if_neg h0]
    set B := (sortedMissingHeaders lines).map mkIncludeLine with hB
    set lines' := insertBlock (insertionLine lines) B lines with hL
    rw [requiredHeaders, List.dedup_eq_nil, List.filter_eq_nil_iff]
    intro a ha
    rw [List.mem_filterMap] at ha
    obtain ⟨f, hf, hlook⟩ := ha
    suffices hmem : a ∈ includedHeaders lines' by
      simp [List.elem_iff, hmem]
    rw [bufferCalls, List.mem_flatMap] at hf
    obtain ⟨l, hl, hcall⟩ := hf
    rcases mem_insertBlock.mp hl with hlB | hlines
    · rw [hB, List.mem_map] at hlB
      obtain ⟨hh, hhm, rfl⟩ := hlB
      have hv : ∃ p ∈ FUNCTION_TO_HEADER, p.2 = hh :=
        requiredHeaders_sub_values (mem_sortedMissingHeaders.mp hhm)
      rw [calls_of_mkIncludeLine hv] at hcall
      cases hcall
    · have hfb : f ∈ bufferCalls lines := by
        rw [bufferCalls, List.mem_flatMap]; exact ⟨l, hlines, hcall⟩
      by_cases hininc : a ∈ includedHeaders lines
      · exact includedHeaders_mono (fun x hx => mem_insertBlock.mpr (Or.inr hx)) hininc
      · have hreq : a ∈ requiredHeaders lines :=
          mem_requiredHeaders.mpr ⟨⟨f, hfb, hlook⟩, hininc⟩
        have hsm : a ∈ sortedMissingHeaders lines := mem_sortedMissingHeaders.mpr hreq
        have hlineB : mkIncludeLine a ∈ B := by
          rw [hB]; exact List.mem_map_of_mem _ hsm
        have hcap : includeCapture (mkIncludeLine a).data = some a.data := by
          obtain ⟨p, hp, hpe⟩ := requiredHeaders_sub_values hreq
          have := (header_values_wellformed p hp).2
          rwa [hpe] at this
        rw [includedHeaders, List.mem_filterMap]
        refine ⟨mkIncludeLine a, mem_insertBlock.mpr (Or.inl hlineB), ?_⟩
        rw [hcap]
        rfl

/-- C1 counterexample: on the one-line buffer `int main() { printf("x"); }`
(no include lines, insertion line 0) header inference inserts exactly the
single line `#include <stdio.h>` directly above the original line — the
inserted text `#include <stdio.h>\n` terminates the header line but adds no
blank line, so the line after the block is the original code line, not the
blank line the claim requires. -/
theorem claim_C1_counterexample :
    autoAddRequiredHeaders ["int main() \x7b printf(\"x\"); \x7d"] =
      ["#include <stdio.h>", "int main() \x7b printf(\"x\"); \x7d"] ∧
    (autoAddRequiredHeaders ["int main() \x7b printf(\"x\"); \x7d"])[1]? ≠
      some "" := by
  exact ⟨rfl, by decide⟩

/-- C1 (amended): whenever some cataloged function is called (identifier
followed by `(`, scanned with the trailing `//` comment stripped) whose
header is not already included, the headers are inserted as a single
contiguous block, lexicographically sorted and duplicate-free, each on its
own `#include <H>` line, at the insertion line — one past the last line
whose trimmed text starts with `#include`, line 0 if there is none.  The
block is followed directly by the line previously at the insertion
position; no blank line is added (that part of the original claim is what
the counterexample refutes). -/
theorem claim_C1_header_insertion (lines : List String)
    (hmiss : ∃ f ∈ bufferCalls lines,
      ∃ h, lookupHeader f = some h ∧ h ∉ includedHeaders lines) :
    autoAddRequiredHeaders lines =
        lines.take (insertionLine lines)
          ++ (sortedMissingHeaders lines).map mkIncludeLine
          ++ lines.drop (insertionLine lines) ∧
      List.Sorted (· ≤ ·) (sortedMissingHeaders lines) ∧
      (sortedMissingHeaders lines).Nodup ∧
      (∀ h, h ∈ sortedMissingHeaders lines ↔
        (∃ f ∈ bufferCalls lines, lookupHeader f = some h) ∧
          h ∉ includedHeaders lines) ∧
      ((insertionLine lines = 0 ∧ ∀ l ∈ lines, isIncludeLine l = false) ∨
        (∃ i, insertionLine lines = i + 1 ∧ ∃ hi : i < lines.length,
          isIncludeLine lines[i] = true ∧
          ∀ j (hj : j < lines.length), i < j → isIncludeLine lines[j] = false)) := by
  have hne : requiredHeaders lines ≠ [] := by
    obtain ⟨f, hf, h, hl, hni⟩ := hmiss
    intro hemp
    have : h ∈ requiredHeaders lines := mem_requiredHeaders.mpr ⟨⟨f, hf, hl⟩, hni⟩
    rw [hemp] at this
    cases this
  refine ⟨?_, ?_, ?_, ?_, ?_⟩
  · rw [autoAddRequiredHeaders, if_neg hne]; rfl
  · exact List.sorted_insertionSort _ _
  · exact (List.perm_insertionSort _ _).symm.nodup (List.nodup_dedup _)
  · intro h
    rw [mem_sortedMissingHeaders, mem_requiredHeaders]
  · cases hli : lastIncludeIdx lines with
    | none =>
      left
      exact ⟨by simp [insertionLine, hli], (lastIncludeIdx_eq_none_iff lines).mp hli⟩
    | some k =>
      right
      exact ⟨k, by simp [insertionLine, hli], lastIncludeIdx_spec hli⟩

/-- C1 witness: the spec's own test vector.  On
`#include <stdio.h>` / `int main(){ printf("x"); strlen("y"); return 0; }`
the inferred header set is `{string.h}` and the include is inserted at
line 1. -/
theorem claim_C1_header_insertion_witness :
    autoAddRequiredHeaders
        ["#include <stdio.h>",
         "int main()\x7b printf(\"x\"); strlen(\"y\"); return 0; \x7d"] =
      ["#include <stdio.h>", "#include <string.h>",
       "int main()\x7b printf(\"x\"); strlen(\"y\"); return 0; \x7d"] := by
  have h := claim_C1_header_insertion
    ["#include <stdio.h>",
     "int main()\x7b printf(\"x\"); strlen(\"y\"); return 0; \x7d"]
    ⟨"strlen", by decide, "string.h", by decide, by decide⟩
  exact h.1.trans (by rfl)

/-- C8: header inference is idempotent — after one run the computed
missing-header set is empty, so a second run inserts nothing and leaves the
buffer unchanged. -/
theorem claim_C8_header_inference_idempotent (lines : List String) :
    requiredHeaders (autoAddRequiredHeaders lines) = [] ∧
      autoAddRequiredHeaders (autoAddRequiredHeaders lines) =
        autoAddRequiredHeaders lines := by
  refine ⟨requiredHeaders_autoAdd lines, ?_⟩
  show (if requiredHeaders (autoAddRequiredHeaders lines) = [] then
          autoAddRequiredHeaders lines
        else
          insertBlock (insertionLine (autoAddRequiredHeaders lines))
            ((sortedMissingHeaders (autoAddRequiredHeaders lines)).map
              mkIncludeLine)
            (autoAddRequiredHeaders lines)) =
      autoAddRequiredHeaders lines
  rw [if_pos (requiredHeaders_autoAdd lines)]

/-- Keywords of the control-structure regex
`/^\s*(if|else if|else|while|for|do|switch)\s*\(.*\)\s*$/`. -/
def ctrlKeywords : List String :=
  ["if", "else if", "else", "while", "for", "do", "switch"]

/-- Test of `/^\s*(if|else if|else|while|for|do|switch)\s*\(.*\)\s*$/`:
optional whitespace, a keyword, optional whitespace, `(`, any run of
non-line-terminator characters, `)`, then only whitespace to the end.
After the opening parenthesis, the matched `)` is necessarily the last
non-whitespace character and everything between must lie in the `.`
class. -/
def matchesCtrl (t : List Char) : Bool :=
  ctrlKeywords.any fun kw =>
    let t1 := t.dropWhile jsWs
    kw.data.isPrefixOf t1 &&
      (match (t1.drop kw.length).dropWhile jsWs with
       | '(' :: r3 =>
         let r4 := dropTrailingWs r3
         r4.getLast? == some ')' && r4.dropLast.all dotChar
       | _ => false)

/-- Keywords of the function-definition regex of `shouldAddSemicolon`. -/
def declKeywords : List String :=
  ["int", "void", "char", "float", "double", "long", "short", "unsigned",
   "signed", "static", "const", "auto", "register"]

/-- The character class `[\w\s\*]` of the function-definition regex. -/
def funcDefClass (c : Char) : Bool :=
  isWordChar c || jsWs c || c = '*'

/-- Test of
`/^\s*(int|...|register)\s+[\w\s\*]+\([^)]*\)\s*$/`: a keyword, at least one
whitespace, at least one further `[\w\s\*]` character, `(` (necessarily the
first one, since the class excludes it), a run without `)`, the first `)`,
then only whitespace to the end.  The segment between keyword and `(` must
be at least two characters (one for `\s+`, one for the class) and starts
with whitespace. -/
def matchesFuncDef (t : List Char) : Bool :=
  declKeywords.any fun kw =>
    let t1 := t.dropWhile jsWs
    kw.data.isPrefixOf t1 &&
      (let r := t1.drop kw.length
       let p := r.takeWhile (fun c => c ≠ '(')
       decide (p.length < r.length) && decide (2 ≤ p.length) &&
         (match p.head? with
          | some c => jsWs c
          | none => false) &&
         p.all funcDefClass &&
         (let afterParen := r.drop (p.length + 1)
          let m := afterParen.takeWhile (fun c => c ≠ ')')
          match afterParen.drop m.length with
          | ')' :: tail => tail.all jsWs
          | _ => false))

/-- Test of `/^\s*(struct|union|enum|typedef)\b/`: a keyword followed by a
word boundary (end of line or a non-word character). -/
def matchesStructDecl (t : List Char) : Bool :=
  ["struct", "union", "enum", "typedef"].any fun kw =>
    let t1 := t.dropWhile jsWs
    kw.data.isPrefixOf t1 &&
      (match (t1.drop kw.length).head? with
       | none => true
       | some c => !isWordChar c)

/-- Test of `/^\s*(case\s+.+|default)\s*:\s*$/`.  For the `case` branch the
text after `case` decomposes as whitespace⁺, a non-empty `.`⁺ segment,
whitespace*, `:`, whitespace*; the matched `:` is necessarily the last
non-whitespace character, the first character after `case` must be
whitespace, and the segment between the first and last remaining
non-whitespace characters must lie in the `.` class (it is empty only when
some leftover whitespace character can serve as the `.`⁺ segment). -/
def matchesCaseLabel (t : List Char) : Bool :=
  let t1 := t.dropWhile jsWs
  ("default".data.isPrefixOf t1 && jsTrim (t1.drop 7) == [':']) ||
  ("case".data.isPrefixOf t1 &&
    (let r := t1.drop 4
     (match r.head? with
      | some c => jsWs c
      | none => false) &&
       (let z := dropTrailingWs r
        z.getLast? == some ':' &&
          (let x := z.dropLast
           (match x.head? with
            | some c => jsWs c
            | none => false) &&
             (let y := x.drop 1
              let y1 := y.dropWhile jsWs
              if y1.isEmpty then y.any dotChar
              else (dropTrailingWs y1).all dotChar)))))

/-- The rule cascade of `shouldAddSemicolon` on the trimmed line, first
matching rule wins. -/
def shouldAddSemicolonCore (t : List Char) : Bool :=
  if t.isEmpty || t.getLast? == some ';' then false
  else if t.getLast? == some '{' || t.getLast? == some ':' ||
      t.getLast? == some '[' then false
  else if t == ['}'] then false
  else if t.head? == some '#' then false
  else if "//".data.isPrefixOf t || "/*".data.isPrefixOf t ||
      "*/".data.isSuffixOf t || "*".data.isPrefixOf t then false
  else if matchesCtrl t then false
  else if matchesFuncDef t then false
  else if matchesStructDecl t then false
  else if matchesCaseLabel t then false
  else true

/-- `shouldAddSemicolon(text)`: trim the line, then run the rule cascade. -/
def shouldAddSemicolon (text : String) : Bool :=
  shouldAddSemicolonCore (jsTrim text.data)

/-- C4 counterexample: the claim includes lines ending in `}` among those
for which `shouldAddSemicolon` returns false, but only a line consisting
solely of `}` is excluded by the cascade; `int x = 5}` (trimmed text ending
in `}`) falls through every rule and receives a semicolon. -/
theorem claim_C4_counterexample :
    shouldAddSemicolon "int x = 5\x7d" = true ∧
      (jsTrim "int x = 5\x7d".data).getLast? = some '\x7d' := by
  decide

/-- C4 (amended): for every input line whose trimmed text ends in `;`, `{`,
`:` or `[`, or whose trimmed text is exactly `}`, `shouldAddSemicolon`
returns false.  (A line ending in `}` together with other content is not
covered — see the counterexample.) -/
theorem claim_C4_semicolon_suppressed (s : String)
    (h : (jsTrim s.data).getLast? = some ';' ∨
      (jsTrim s.data).getLast? = some '{' ∨
      (jsTrim s.data).getLast? = some ':' ∨
      (jsTrim s.data).getLast? = some '[' ∨
      jsTrim s.data = ['}']) :
    shouldAddSemicolon s = false := by
  unfold shouldAddSemicolon
  generalize jsTrim s.data = t at h
  have hne : ∀ c : Char, t.getLast? = some c → t.isEmpty = false := by
    intro c hc
    cases t with
    | nil => cases hc
    | cons a l => rfl
  rcases h with h | h | h | h | h
  · simp [shouldAddSemicolonCore, h]
  · simp [shouldAddSemicolonCore, h, hne _ h]
  · simp [shouldAddSemicolonCore, h, hne _ h]
  · simp [shouldAddSemicolonCore, h, hne _ h]
  · subst h; decide

/-- C4 witness: concrete instances of the amended claim, one per suppressed
ending. -/
theorem claim_C4_semicolon_suppressed_witness :
    shouldAddSemicolon "int x = 5;" = false ∧
      shouldAddSemicolon "if (x > 0) \x7b" = false ∧
      shouldAddSemicolon "case 1:" = false ∧
      shouldAddSemicolon "int a[] = [" = false ∧
      shouldAddSemicolon "\x7d" = false :=
  ⟨claim_C4_semicolon_suppressed "int x = 5;" (Or.inl (by decide)),
   claim_C4_semicolon_suppressed "if (x > 0) \x7b" (Or.inr (Or.inl (by decide))),
   claim_C4_semicolon_suppressed "case 1:" (Or.inr (Or.inr (Or.inl (by decide)))),
   claim_C4_semicolon_suppressed "int a[] = ["
     (Or.inr (Or.inr (Or.inr (Or.inl (by decide))))),
   claim_C4_semicolon_suppressed "\x7d"
     (Or.inr (Or.inr (Or.inr (Or.inr (by decide)))))⟩

/-- Test of `/^\s*(int|void)\s+main\s*\(/` — the anchor (`main`) line search
of `autoGeneratePrototypes`. -/
def isMainLine (l : String) : Bool :=
  ["int", "void"].any fun kw =>
    let t1 := l.data.dropWhile jsWs
    kw.data.isPrefixOf t1 &&
      (let r := t1.drop kw.length
       (match r.head? with
        | some c => jsWs c
        | none => false) &&
         (let r2 := r.dropWhile jsWs
          "main".data.isPrefixOf r2 &&
            (match (r2.drop 4).dropWhile jsWs with
             | '(' :: _ => true
             | _ => false)))

/-- The loop locating the first `main` definition line strictly after the
last include line (`break` on first hit). -/
def mainIdx (lines : List String) (li : Nat) : Option Nat :=
  match (lines.drop (li + 1)).findIdx? isMainLine with
  | some k => some (li + 1 + k)
  | none => none

/-- Return-type keywords of the function-definition regex of
`autoGeneratePrototypes` (none of which is a prefix of another, so the
alternation is deterministic). -/
def protoKeywords : List String :=
  ["int", "void", "char", "float", "double", "long", "short", "unsigned",
   "signed"]

/-- One match attempt at line start of
`/^\s*(int|...)\s+([a-zA-Z_]\w*)\s*\(([^)]*)\)\s*\{/` — returning the three
captures (return type, function name, raw parameter text).  The identifier
is the maximal word-character run (a shorter run would have to be followed
by a word character, on which `\s*\(` fails), `(` must follow it directly
after optional whitespace, the parameter capture runs to the first `)`, and
a `{` must follow after optional whitespace; the rest of the line is
unconstrained. -/
def funcDefMatch (l : String) : Option (String × String × String) :=
  protoKeywords.findSome? fun kw =>
    let t1 := l.data.dropWhile jsWs
    if kw.data.isPrefixOf t1 then
      let r := t1.drop kw.length
      match r.head? with
      | some c =>
        if jsWs c then
          let r2 := r.dropWhile jsWs
          match r2.head? with
          | some d =>
            if isIdentStart d then
              let nm := r2.takeWhile isWordChar
              match (r2.drop nm.length).dropWhile jsWs with
              | '(' :: r4 =>
                let ps := r4.takeWhile (fun c => c != ')')
                match r4.drop ps.length with
                | ')' :: r5 =>
                  match r5.dropWhile jsWs with
                  | '{' :: _ => some (kw, String.mk nm, String.mk ps)
                  | _ => none
                | _ => none
              | _ => none
            else none
          | none => none
        else none
      | none => none
    else none

/-- A found function definition: its name and the synthesized one-line
prototype (the `{ name, prototype }` objects of the source). -/
structure ProtoCand where
  name : String
  prototype : String
deriving Repr, DecidableEq

/-- `` `${returnType} ${functionName}(${parameters});` `` with the captured
parameter text trimmed, as in the source. -/
def mkPrototype (rt nm ps : String) : String :=
  rt ++ " " ++ nm ++ "(" ++ String.mk (jsTrim ps.data) ++ ");"

/-- All user-defined functions found strictly after the anchor line, in
encounter order, excluding `main`. -/
def foundFunctions (lines : List String) (mi : Nat) : List ProtoCand :=
  (lines.drop (mi + 1)).filterMap fun l =>
    match funcDefMatch l with
    | some (rt, nm, ps) =>
      if nm = "main" then none else some ⟨nm, mkPrototype rt nm ps⟩
    | none => none

/-- `lines.slice(lastIncludeLine + 1, mainLine).join('\n')` — the prototype
area searched for existing declarations. -/
def prototypeArea (lines : List String) (li mi : Nat) : String :=
  String.intercalate "\n" ((lines.drop (li + 1)).take (mi - (li + 1)))

/-- One match attempt of `` `\b${name}\s*\([^)]*\)\s*;` `` at the start of
`l` (the leading boundary is checked by the caller). -/
def protoDeclHere (name l : List Char) : Bool :=
  name.isPrefixOf l &&
    (match (l.drop name.length).dropWhile jsWs with
     | '(' :: r4 =>
       (let ps := r4.takeWhile (fun c => c != ')')
        match r4.drop ps.length with
        | ')' :: r5 =>
          (match r5.dropWhile jsWs with
           | ';' :: _ => true
           | _ => false)
        | _ => false)
     | _ => false)

/-- Test of `` `\b${name}\s*\([^)]*\)\s*;` `` anywhere in the area text;
`prevW` tracks the word boundary as in `callsAux` (the name is an
identifier, so `\b` holds exactly at non-word-preceded positions). -/
def hasProtoDecl (name : List Char) : List Char → Bool → Bool
  | [], _ => false
  | c :: rest, prevW =>
    (!prevW && protoDeclHere name (c :: rest)) ||
      hasProtoDecl name rest (isWordChar c)

/-- The candidates whose prototype pattern does not occur in the prototype
area, in encounter order. -/
def missingPrototypes (lines : List String) (li mi : Nat) : List ProtoCand :=
  (foundFunctions lines mi).filter
    (fun f => !hasProtoDecl f.name.data (prototypeArea lines li mi).data false)

/-- `autoGeneratePrototypes` as a buffer transformation: no-op without an
include line, without a `main` line after it, without found functions or
without missing prototypes; otherwise insert
`'\n' + prototypes.join('\n') + '\n'` at line `lastInclude + 1`, column 0 —
i.e. a blank line followed by the prototype lines. -/
def autoGeneratePrototypes (lines : List String) : List String :=
  match lastIncludeIdx lines with
  | none => lines
  | some li =>
    match mainIdx lines li with
    | none => lines
    | some mi =>
      if foundFunctions lines mi = [] then lines
      else if missingPrototypes lines li mi = [] then lines
      else
        insertBlock (li + 1)
          ("" :: (missingPrototypes lines li mi).map (·.prototype)) lines

/-- Every synthesized prototype string ends in `;`. -/
theorem mkPrototype_getLast (rt nm ps : String) :
    (mkPrototype rt nm ps).data.getLast? = some ';' := by
  unfold mkPrototype
  rw [String.data_append, List.getLast?_append]
  rfl

theorem mem_foundFunctions_shape {lines : List String} {mi : Nat}
    {p : ProtoCand} (hp : p ∈ foundFunctions lines mi) :
    ∃ rt nm ps, p.prototype = mkPrototype rt nm ps := by
  unfold foundFunctions at hp
  rw [List.mem_filterMap] at hp
  obtain ⟨l, hl, hf⟩ := hp
  cases hm : funcDefMatch l with
  | none => rw [hm] at hf; cases hf
  | some r =>
    obtain ⟨rt, nm, ps⟩ := r
    rw [hm] at hf
    by_cases hmain : nm = "main"
    · simp [hmain] at hf
    · simp only [hmain, if_false] at hf
      refine ⟨rt, nm, ps, ?_⟩
      cases hf
      rfl

/-- C3 counterexample: with buffer
`#include <stdio.h>` / `int main() {` / `}` / `int add(int a, int b) {` /
`}` the missing prototype is inserted as `'\n' + proto + '\n'` at line 1,
which yields a blank line, the prototype line, and then directly the old
`int main() {` line: the block is preceded but NOT followed by a blank
line, contradicting the claim. -/
theorem claim_C3_counterexample :
    autoGeneratePrototypes
        ["#include <stdio.h>", "int main() \x7b", "\x7d",
         "int add(int a, int b) \x7b", "\x7d"] =
      ["#include <stdio.h>", "", "int add(int a, int b);", "int main() \x7b",
       "\x7d", "int add(int a, int b) \x7b", "\x7d"] ∧
    (autoGeneratePrototypes
        ["#include <stdio.h>", "int main() \x7b", "\x7d",
         "int add(int a, int b) \x7b", "\x7d"])[3]? ≠ some "" := by
  exact ⟨rfl, by decide⟩

/-- C3 (amended): whenever the buffer has a last include line `li`, an
anchor `main` line after it, and at least one candidate prototype missing
from the prototype area, all missing prototypes are inserted as one block —
one prototype per line, each terminated with `;` — immediately after the
last include line, preceded (but not followed) by a blank line, preserving
the order in which their definitions were encountered (the inserted list is
a sublist of the encounter-ordered candidate list). -/
theorem claim_C3_prototype_insertion (lines : List String) (li mi : Nat)
    (hli : lastIncludeIdx lines = some li)
    (hmi : mainIdx lines li = some mi)
    (hmiss : missingPrototypes lines li mi ≠ []) :
    autoGeneratePrototypes lines =
        lines.take (li + 1)
          ++ ("" :: (missingPrototypes lines li mi).map (fun p => p.prototype))
          ++ lines.drop (li + 1) ∧
      (missingPrototypes lines li mi).Sublist (foundFunctions lines mi) ∧
      ∀ p ∈ missingPrototypes lines li mi,
        p.prototype.data.getLast? = some ';' := by
  have hfound : foundFunctions lines mi ≠ [] := by
    intro he
    apply hmiss
    unfold missingPrototypes
    rw [he]
    rfl
  refine ⟨?_, List.filter_sublist _, ?_⟩
  · unfold autoGeneratePrototypes
    rw [hli]
    dsimp only
    rw [hmi]
    dsimp only
    rw [if_neg hfound, if_neg hmiss]
    rfl
  · intro p hp
    have hpf : p ∈ foundFunctions lines mi :=
      (List.filter_sublist _).mem hp
    obtain ⟨rt, nm, ps, hshape⟩ := mem_foundFunctions_shape hpf
    rw [hshape]
    exact mkPrototype_getLast rt nm ps

/-- C3 witness: two helpers defined after `main` get their prototypes in
encounter order (not sorted), each on its own terminated line, right after
the include line and one blank line. -/
theorem claim_C3_prototype_insertion_witness :
    autoGeneratePrototypes
        ["#include <stdio.h>", "int main() \x7b", "\x7d", "int bbb(int x) \x7b",
         "\x7d", "int aaa(void) \x7b", "\x7d"] =
      ["#include <stdio.h>", "", "int bbb(int x);", "int aaa(void);",
       "int main() \x7b", "\x7d", "int bbb(int x) \x7b", "\x7d",
       "int aaa(void) \x7b", "\x7d"] := by
  have h := claim_C3_prototype_insertion
    ["#include <stdio.h>", "int main() \x7b", "\x7d", "int bbb(int x) \x7b",
     "\x7d", "int aaa(void) \x7b", "\x7d"] 0 1 (by decide) (by decide)
    (by decide)
  exact h.1.trans (by rfl)

/-- C9: prototype synthesis aborts without any edit when the buffer has no
include line, and likewise when no line after the last include line matches
the `int|void main(` anchor pattern. -/
theorem claim_C9_prototype_abort (lines : List String) :
    ((∀ l ∈ lines, isIncludeLine l = false) →
      autoGeneratePrototypes lines = lines) ∧
    (∀ li, lastIncludeIdx lines = some li →
      (∀ j (hj : j < lines.length), li < j → isMainLine lines[j] = false) →
      autoGeneratePrototypes lines = lines) := by
  constructor
  · intro hnone
    unfold autoGeneratePrototypes
    rw [(lastIncludeIdx_eq_none_iff lines).mpr hnone]
  · intro li hli hmain
    have hdrop : ∀ x ∈ lines.drop (li + 1), isMainLine x = false := by
      intro x hx
      obtain ⟨k, hk, hxe⟩ := List.getElem_of_mem hx
      rw [List.getElem_drop] at hxe
      subst hxe
      exact hmain _ _ (by omega)
    have hmi : mainIdx lines li = none := by
      unfold mainIdx
      rw [List.findIdx?_eq_none_iff.mpr hdrop]
    unfold autoGeneratePrototypes
    rw [hli]
    dsimp only
    rw [hmi]

/-- C9 witness: a buffer without includes, and a buffer with an include but
no `main` after it, are both left unchanged. -/
theorem claim_C9_prototype_abort_witness :
    autoGeneratePrototypes ["int x;"] = ["int x;"] ∧
      autoGeneratePrototypes ["#include <stdio.h>", "int x;"] =
        ["#include <stdio.h>", "int x;"] :=
  ⟨(claim_C9_prototype_abort ["int x;"]).1 (by decide),
   (claim_C9_prototype_abort ["#include <stdio.h>", "int x;"]).2 0
     (by decide) (by decide)⟩

/-- `vscode.DiagnosticSeverity` values used by the scanner. -/
inductive DiagSeverity where
  | warning
  | information
deriving Repr, DecidableEq

/-- A produced `vscode.Diagnostic`: single-line range plus message and
severity. -/
structure Diag where
  startLine : Nat
  startCol : Nat
  endLine : Nat
  endCol : Nat
  message : String
  severity : DiagSeverity
deriving Repr, DecidableEq

/-- The comment-line guard of `checkUnsafeFunctions`: trimmed line starts
with `//`, `/*` or `*`. -/
def isCommentLine (line : String) : Bool :=
  let trimmed := jsTrim line.data
  "//".data.isPrefixOf trimmed || "/*".data.isPrefixOf trimmed ||
    "*".data.isPrefixOf trimmed

/-- `checkUnsafeFunctions(line, lineNumber, diagnostics)`: skip
comment-looking lines; for each `(unsafe, safe)` pair, when the line
contains `unsafe(`, and the first occurrence of the bare name is not after
the first `//`, push a Warning spanning the first occurrence of the name.
(`line.indexOf(unsafeFunc)` cannot be `-1` when `unsafe(` occurs; the
unreachable branch yields no diagnostic.) -/
def checkUnsafeFunctions (line : String) (lineNumber : Nat) : List Diag :=
  if isCommentLine line then []
  else
    UNSAFE_FUNCTIONS.flatMap fun p =>
      if containsSub (p.1.data ++ ['(']) line.data then
        match firstIdx p.1.data line.data with
        | some funcIndex =>
          match firstIdx "//".data line.data with
          | some commentIndex =>
            if commentIndex < funcIndex then []
            else
              [⟨lineNumber, funcIndex, lineNumber, funcIndex + p.1.length,
                "Unsafe function '" ++ p.1 ++ "'. Consider using '" ++ p.2 ++
                  "' instead.", .warning⟩]
          | none =>
            [⟨lineNumber, funcIndex, lineNumber, funcIndex + p.1.length,
              "Unsafe function '" ++ p.1 ++ "'. Consider using '" ++ p.2 ++
                "' instead.", .warning⟩]
        | none => []
      else []

/-- Test of `/\bNULL\b/`: the token `NULL` delimited by word boundaries. -/
def hasWordNULL : List Char → Bool → Bool
  | [], _ => false
  | c :: rest, prevW =>
    (!prevW && "NULL".data.isPrefixOf (c :: rest) &&
      (match ((c :: rest).drop 4).head? with
       | some d => !isWordChar d
       | none => true)) ||
      hasWordNULL rest (isWordChar c)

/-- Test of `/\b!=\s*NULL|==\s*NULL\b/`.  The boundary before `!` holds
exactly when the previous character is a word character (`!` itself is not
one); the second alternative has no leading boundary but requires one after
`NULL`. -/
def hasCompareNULL : List Char → Bool → Bool
  | [], _ => false
  | c :: rest, prevW =>
    ((prevW && "!=".data.isPrefixOf (c :: rest) &&
        "NULL".data.isPrefixOf (((c :: rest).drop 2).dropWhile jsWs)) ||
      ("==".data.isPrefixOf (c :: rest) &&
        ("NULL".data.isPrefixOf (((c :: rest).drop 2).dropWhile jsWs) &&
          (match ((((c :: rest).drop 2).dropWhile jsWs).drop 4).head? with
           | some d => !isWordChar d
           | none => true)))) ||
      hasCompareNULL rest (isWordChar c)

/-- Test of `/\bif\s*\(/`. -/
def hasIfParen : List Char → Bool → Bool
  | [], _ => false
  | c :: rest, prevW =>
    (!prevW && "if".data.isPrefixOf (c :: rest) &&
        (((c :: rest).drop 2).dropWhile jsWs).head? == some '(') ||
      hasIfParen rest (isWordChar c)

/-- `hasNullCheck` of `checkFopenWithoutNullCheck`:
`/\bNULL\b/.test(nextLines) || /\b!=\s*NULL|==\s*NULL\b/.test(nextLines)`. -/
def hasNullCheck (next : List Char) : Bool :=
  hasWordNULL next false || hasCompareNULL next false

/-- `hasErrorHandling` of `checkFopenWithoutNullCheck`:
`/\bif\s*\(/.test(nextLines) || /perror/.test(nextLines)`. -/
def hasErrorHandling (next : List Char) : Bool :=
  hasIfParen next false || containsSub "perror".data next

/-- `lines.slice(lineNumber + 1, Math.min(lineNumber + 5, lines.length))
.join('\n')` — the inspected block of up to four following lines. -/
def fopenNextLines (lines : List String) (lineNumber : Nat) : String :=
  String.intercalate "\n"
    ((lines.drop (lineNumber + 1)).take
      (min (lineNumber + 5) lines.length - (lineNumber + 1)))

/-- `checkFopenWithoutNullCheck(lines, line, lineNumber, diagnostics)`:
when the comment-stripped line contains `fopen(` and the joined following
block shows neither a NULL check nor error handling, push an Information
diagnostic from the first `fopen` to the end of the comment-stripped
line. -/
def checkFopenWithoutNullCheck (lines : List String) (line : String)
    (lineNumber : Nat) : List Diag :=
  let checkLine := stripComment line.data
  if containsSub "fopen(".data checkLine then
    if !hasNullCheck (fopenNextLines lines lineNumber).data &&
        !hasErrorHandling (fopenNextLines lines lineNumber).data then
      match firstIdx "fopen".data checkLine with
      | some idx =>
        [⟨lineNumber, idx, lineNumber, checkLine.length,
          "Consider checking if fopen() returned NULL before using the file pointer",
          .information⟩]
      | none => []
    else []
  else []

theorem occursAt_cons {c : Char} {q l : List Char} {j : Nat}
    (h : occursAt (c :: q) l j) : occursAt q l (j + 1) := by
  unfold occursAt at h ⊢
  obtain ⟨t, ht⟩ := h
  refine ⟨t, ?_⟩
  have hdd : l.drop (j + 1) = (l.drop j).drop 1 := by
    rw [List.drop_drop, Nat.add_comm]
  rw [hdd, ← ht]
  simp

/-- Shared emission lemma for the unsafe-function check: a non-comment line
containing `unsafe(` whose bare-name first occurrence is not after the
first `//` receives the corresponding Warning, spanning the first
occurrence of the name. -/
theorem unsafe_emit {line : String} {i : Nat} {u s : String}
    (hmem : (u, s) ∈ UNSAFE_FUNCTIONS)
    (hnc : isCommentLine line = false)
    (hocc : ∃ j, occursAt (u.data ++ ['(']) line.data j)
    (hbefore : ∀ ci fi, firstIdx "//".data line.data = some ci →
      firstIdx u.data line.data = some fi → fi ≤ ci) :
    ∃ d ∈ checkUnsafeFunctions line i,
      d.message =
          "Unsafe function '" ++ u ++ "'. Consider using '" ++ s ++
            "' instead." ∧
        d.severity = .warning ∧ d.startLine = i ∧ d.endLine = i ∧
        firstIdx u.data line.data = some d.startCol ∧
        d.endCol = d.startCol + u.length := by
  obtain ⟨j, hocc⟩ := hocc
  have hocc_u : occursAt u.data line.data j := occursAt_append_left hocc
  have hfi : (firstIdx u.data line.data).isSome :=
    firstIdx_isSome_of_occursAt hocc_u
  obtain ⟨fi, hfi_eq⟩ := Option.isSome_iff_exists.mp hfi
  have hcont : containsSub (u.data ++ ['(']) line.data = true := by
    unfold containsSub
    simpa using firstIdx_isSome_of_occursAt hocc
  refine ⟨⟨i, fi, i, fi + u.length,
    "Unsafe function '" ++ u ++ "'. Consider using '" ++ s ++ "' instead.",
    .warning⟩, ?_, rfl, rfl, rfl, rfl, hfi_eq, rfl⟩
  unfold checkUnsafeFunctions
  simp only [hnc, Bool.false_eq_true, if_false]
  rw [List.mem_flatMap]
  refine ⟨(u, s), hmem, ?_⟩
  simp only [hcont, if_true]
  rw [hfi_eq]
  cases hci : firstIdx "//".data line.data with
  | none => simp
  | some ci =>
    have hle : fi ≤ ci := hbefore ci fi hci hfi_eq
    have : ¬ci < fi := by omega
    simp [this]

/-- C5 (amended): for every `(unsafe, safe)` pair of the table and every
line whose trimmed text does not start with `//`, `/*` or `*`, containing
an occurrence of `unsafe(` that starts before the first `//` of the line
(or on a line with no `//`), a Warning is emitted whose range is the column
span of the first occurrence of the bare function name on the line, with
message `Unsafe function '<unsafe>'. Consider using '<safe>' instead.`.
(The original claim omits the comment-line guard — see the
counterexample — and the span is that of the first name occurrence, which
the comparison against the `//` position also uses.) -/
theorem claim_C5_unsafe_warning (line : String) (i : Nat) (u s : String)
    (hmem : (u, s) ∈ UNSAFE_FUNCTIONS)
    (hnc : isCommentLine line = false)
    (hocc : ∃ j, occursAt (u.data ++ ['(']) line.data j ∧
      ∀ ci, firstIdx "//".data line.data = some ci → j < ci) :
    ∃ d ∈ checkUnsafeFunctions line i,
      d.message =
          "Unsafe function '" ++ u ++ "'. Consider using '" ++ s ++
            "' instead." ∧
        d.severity = .warning ∧ d.startLine = i ∧ d.endLine = i ∧
        firstIdx u.data line.data = some d.startCol ∧
        d.endCol = d.startCol + u.length := by
  obtain ⟨j, hocc, hci⟩ := hocc
  refine unsafe_emit hmem hnc ⟨j, hocc⟩ ?_
  intro ci fi hcieq hfieq
  have h1 : fi ≤ j := firstIdx_le hfieq (occursAt_append_left hocc)
  have h2 : j < ci := hci ci hcieq
  omega

/-- C5 counterexample: the line `/* strcpy(a,b); */` contains `strcpy(`
with no `//` on the line, so the claim as stated demands a Warning; but the
code skips every line whose trimmed text starts with `/*` (or `//` or `*`)
and emits nothing. -/
theorem claim_C5_counterexample :
    checkUnsafeFunctions "/* strcpy(a,b); */" 0 = [] ∧
      containsSub "strcpy(".data "/* strcpy(a,b); */".data = true ∧
      firstIdx "//".data "/* strcpy(a,b); */".data = none := by
  decide

/-- C5 witness: `strcpy(dst, src);` yields the strcpy/strncpy Warning at
columns 0–6. -/
theorem claim_C5_unsafe_warning_witness :
    ∃ d ∈ checkUnsafeFunctions "strcpy(dst, src);" 0,
      d.message =
          "Unsafe function '" ++ "strcpy" ++ "'. Consider using '" ++
            "strncpy" ++ "' instead." ∧
        d.severity = .warning ∧ d.startLine = 0 ∧ d.endLine = 0 ∧
        firstIdx "strcpy".data "strcpy(dst, src);".data = some d.startCol ∧
        d.endCol = d.startCol + "strcpy".length :=
  claim_C5_unsafe_warning "strcpy(dst, src);" 0 "strcpy" "strncpy"
    (by decide) (by decide) ⟨0, by decide, by decide⟩

/-- C10: because matching is by plain substring, a line containing
`fgets(` (not comment-guarded, with the first `gets` occurrence not after a
`//`) also contains `gets(` and therefore receives the Warning
`Unsafe function 'gets'. Consider using 'fgets' instead.` — the recommended
safe function is itself flagged. -/
theorem claim_C10_fgets_flagged (line : String) (i : Nat)
    (hnc : isCommentLine line = false)
    (hocc : ∃ j, occursAt "fgets(".data line.data j)
    (hbefore : ∀ ci fi, firstIdx "//".data line.data = some ci →
      firstIdx "gets".data line.data = some fi → fi ≤ ci) :
    ∃ d ∈ checkUnsafeFunctions line i,
      d.message = "Unsafe function 'gets'. Consider using 'fgets' instead." ∧
        d.severity = .warning := by
  obtain ⟨j, hj⟩ := hocc
  have hg : occursAt ("gets".data ++ ['(']) line.data (j + 1) := by
    have : "fgets(".data = 'f' :: ("gets".data ++ ['(']) := by decide
    rw [this] at hj
    exact occursAt_cons hj
  obtain ⟨d, hd, hmsg, hsev, -⟩ :=
    unsafe_emit (u := "gets") (s := "fgets") (i := i) (by decide) hnc
      ⟨j + 1, hg⟩ hbefore
  exact ⟨d, hd, hmsg, hsev⟩

/-- C10 witness: `fgets(buf, 10, stdin);` is itself flagged as using the
unsafe `gets`. -/
theorem claim_C10_fgets_flagged_witness :
    ∃ d ∈ checkUnsafeFunctions "fgets(buf, 10, stdin);" 0,
      d.message = "Unsafe function 'gets'. Consider using 'fgets' instead." ∧
        d.severity = .warning :=
  claim_C10_fgets_flagged "fgets(buf, 10, stdin);" 0 (by decide)
    ⟨0, by decide⟩
    (fun ci fi hci hfi => by
      have hn : firstIdx "//".data "fgets(buf, 10, stdin);".data = none := by
        decide
      rw [hn] at hci
      cases hci)

/-- C6 counterexample: a bare (uncompared) `NULL` in the following block —
here `char *p = NULL;` on the next line — suppresses the diagnostic even
though the block contains no `!=`/`==` comparison, no `if (` and no
`perror`, because the code's `hasNullCheck` already fires on
`/\bNULL\b/` alone; the claim as stated demands an emission here. -/
theorem claim_C6_counterexample :
    checkFopenWithoutNullCheck
        ["FILE *f = fopen(\"a.txt\", \"r\");", "char *p = NULL;"]
        "FILE *f = fopen(\"a.txt\", \"r\");" 0 = [] ∧
      containsSub "fopen(".data
        (stripComment "FILE *f = fopen(\"a.txt\", \"r\");".data) = true ∧
      fopenNextLines
        ["FILE *f = fopen(\"a.txt\", \"r\");", "char *p = NULL;"] 0 =
        "char *p = NULL;" ∧
      containsSub "!=".data "char *p = NULL;".data = false ∧
      containsSub "==".data "char *p = NULL;".data = false ∧
      containsSub "if (".data "char *p = NULL;".data = false ∧
      containsSub "perror".data "char *p = NULL;".data = false := by
  decide

/-- C6 (amended): for every buffer, line and line number, an Information
diagnostic spanning from the first `fopen` of the comment-stripped line to
its end is emitted if and only if the comment-stripped line contains
`fopen(` and the joined block of the up-to-4 following lines contains
neither the word-delimited token `NULL` (compared or not) nor a
`!=`/`==`-comparison with `NULL`, nor a word-boundary `if` followed by `(`,
nor the substring `perror`. -/
theorem claim_C6_fopen_diagnostic (lines : List String) (line : String)
    (i : Nat) :
    (∃ d, checkFopenWithoutNullCheck lines line i = [d] ∧
        d.message =
          "Consider checking if fopen() returned NULL before using the file pointer" ∧
        d.severity = .information ∧ d.startLine = i ∧ d.endLine = i ∧
        firstIdx "fopen".data (stripComment line.data) = some d.startCol ∧
        d.endCol = (stripComment line.data).length) ↔
      (containsSub "fopen(".data (stripComment line.data) = true ∧
        hasNullCheck (fopenNextLines lines i).data = false ∧
        hasErrorHandling (fopenNextLines lines i).data = false) := by
  constructor
  · rintro ⟨d, hd, -⟩
    unfold checkFopenWithoutNullCheck at hd
    cases h1 : containsSub "fopen(".data (stripComment line.data) with
    | false =>
      simp only [h1, Bool.false_eq_true, if_false] at hd
      cases hd
    | true =>
      refine ⟨rfl, ?_⟩
      cases h2 : hasNullCheck (fopenNextLines lines i).data with
      | true =>
        simp only [h1, h2, if_true, Bool.not_true, Bool.false_and,
          Bool.false_eq_true, if_false] at hd
        cases hd
      | false =>
        cases h3 : hasErrorHandling (fopenNextLines lines i).data with
        | true =>
          simp only [h1, h2, h3, if_true, Bool.not_true, Bool.not_false,
            Bool.true_and, Bool.false_eq_true, if_false] at hd
          cases hd
        | false => exact ⟨rfl, rfl⟩
  · rintro ⟨h1, h2, h3⟩
    have hocc : ∃ j, occursAt ("fopen".data ++ ['(']) (stripComment line.data) j := by
      have hs : (firstIdx "fopen(".data (stripComment line.data)).isSome := h1
      obtain ⟨k, hk⟩ := Option.isSome_iff_exists.mp hs
      exact ⟨k, by simpa using firstIdx_spec hk⟩
    obtain ⟨j, hj⟩ := hocc
    have hfo : (firstIdx "fopen".data (stripComment line.data)).isSome :=
      firstIdx_isSome_of_occursAt (occursAt_append_left hj)
    obtain ⟨fi, hfi⟩ := Option.isSome_iff_exists.mp hfo
    refine ⟨⟨i, fi, i, (stripComment line.data).length,
      "Consider checking if fopen() returned NULL before using the file pointer",
      .information⟩, ?_, rfl, rfl, rfl, rfl, hfi, rfl⟩
    unfold checkFopenWithoutNullCheck
    simp only [h1, h2, h3, if_true, Bool.not_false, Bool.true_and]
    rw [hfi]

/-- C6 witness: `fopen` with an unrelated following line produces exactly
the Information diagnostic from column 10 to the end of the line. -/
theorem claim_C6_fopen_diagnostic_witness :
    ∃ d, checkFopenWithoutNullCheck
        ["FILE *f = fopen(\"a.txt\", \"r\");", "x = 1;"]
        "FILE *f = fopen(\"a.txt\", \"r\");" 0 = [d] ∧
      d.message =
        "Consider checking if fopen() returned NULL before using the file pointer" ∧
      d.severity = .information ∧ d.startLine = 0 ∧ d.endLine = 0 ∧
      firstIdx "fopen".data
        (stripComment "FILE *f = fopen(\"a.txt\", \"r\");".data) =
        some d.startCol ∧
      d.endCol = (stripComment "FILE *f = fopen(\"a.txt\", \"r\");".data).length :=
  (claim_C6_fopen_diagnostic ["FILE *f = fopen(\"a.txt\", \"r\");", "x = 1;"]
    "FILE *f = fopen(\"a.txt\", \"r\");" 0).mpr (by decide)

/-- JavaScript `String.prototype.toLowerCase`, for the ASCII range the
catalog and queries use. -/
def asciiToLower (s : String) : String :=
  String.mk (s.data.map Char.toLower)

/-- One entry of `LIBRARY_DATABASE` — the fields the search predicates
consult (name, header, description). -/
structure LibEntry where
  name : String
  header : String
  description : String
deriving Repr, DecidableEq

/-- `LIBRARY_DATABASE` in declaration order (`Object.values` order), with
each entry's name, header and description. -/
def LIBRARY_DATABASE : List LibEntry :=
  [⟨"printf", "stdio.h", "Prints formatted output to stdout"⟩,
   ⟨"scanf", "stdio.h", "Reads formatted input from stdin"⟩,
   ⟨"fprintf", "stdio.h", "Prints formatted output to a file stream"⟩,
   ⟨"sprintf", "stdio.h", "Prints formatted output to a string buffer"⟩,
   ⟨"fgets", "stdio.h", "Reads a line from a file stream into a buffer"⟩,
   ⟨"fputs", "stdio.h", "Writes a string to a file stream"⟩,
   ⟨"fread", "stdio.h", "Reads binary data from a file stream"⟩,
   ⟨"fwrite", "stdio.h", "Writes binary data to a file stream"⟩,
   ⟨"malloc", "stdlib.h", "Allocates memory dynamically on the heap"⟩,
   ⟨"calloc", "stdlib.h", "Allocates memory and initializes it to zero"⟩,
   ⟨"realloc", "stdlib.h", "Changes the size of previously allocated memory"⟩,
   ⟨"free", "stdlib.h", "Frees dynamically allocated memory"⟩,
   ⟨"strlen", "string.h",
    "Returns the length of a string (excluding null terminator)"⟩,
   ⟨"strcmp", "string.h", "Compares two strings lexicographically"⟩,
   ⟨"strncmp", "string.h", "Compares first n characters of two strings"⟩,
   ⟨"strcpy", "string.h", "Copies a string from source to destination"⟩,
   ⟨"strncpy", "string.h",
    "Safely copies up to n characters from source to destination"⟩,
   ⟨"strcat", "string.h", "Concatenates two strings"⟩,
   ⟨"strncat", "string.h", "Safely concatenates up to n characters"⟩,
   ⟨"strchr", "string.h",
    "Finds the first occurrence of a character in a string"⟩,
   ⟨"strstr", "string.h",
    "Finds the first occurrence of a substring in a string"⟩,
   ⟨"atoi", "stdlib.h", "Converts a string to an integer"⟩,
   ⟨"atof", "stdlib.h", "Converts a string to a floating point number"⟩,
   ⟨"fopen", "stdio.h", "Opens a file and returns a FILE pointer"⟩,
   ⟨"fclose", "stdio.h", "Closes a file stream"⟩,
   ⟨"abs", "stdlib.h", "Returns the absolute value of an integer"⟩,
   ⟨"sqrt", "math.h", "Calculates the square root"⟩,
   ⟨"pow", "math.h", "Calculates x raised to the power of y"⟩,
   ⟨"ceil", "math.h", "Rounds up to the nearest integer"⟩,
   ⟨"floor", "math.h", "Rounds down to the nearest integer"⟩,
   ⟨"round", "math.h", "Rounds to the nearest integer"⟩,
   ⟨"isdigit", "ctype.h", "Checks if a character is a digit (0-9)"⟩,
   ⟨"isalpha", "ctype.h", "Checks if a character is alphabetic (a-z, A-Z)"⟩,
   ⟨"isalnum", "ctype.h", "Checks if a character is alphanumeric"⟩,
   ⟨"isspace", "ctype.h", "Checks if a character is whitespace"⟩,
   ⟨"toupper", "ctype.h", "Converts a character to uppercase"⟩,
   ⟨"tolower", "ctype.h", "Converts a character to lowercase"⟩,
   ⟨"memcpy", "string.h", "Copies n bytes from source to destination"⟩,
   ⟨"memset", "string.h", "Sets n bytes of memory to a value"⟩,
   ⟨"time", "time.h", "Gets the current calendar time"⟩,
   ⟨"rand", "stdlib.h", "Generates a pseudo-random number"⟩,
   ⟨"srand", "stdlib.h", "Seeds the random number generator"⟩,
   ⟨"exit", "stdlib.h", "Terminates the program"⟩,
   ⟨"getchar", "stdio.h", "Reads a single character from stdin"⟩,
   ⟨"putchar", "stdio.h", "Writes a single character to stdout"⟩,
   ⟨"perror", "stdio.h", "Prints error message based on errno"⟩]

/-- The filter of the sidebar handler `_handleWebviewMessage`: match by
lowercased name substring, or by header substring — both against the query
as given and with `.h` appended when the query does not already end in
`.h`. -/
def sidebarFilter (searchTerm : String) : List LibEntry :=
  LIBRARY_DATABASE.filter fun func =>
    containsSub searchTerm.data (asciiToLower func.name).data ||
      (let headerTerm :=
        if ".h".data.isSuffixOf searchTerm.data then searchTerm
        else searchTerm ++ ".h"
       containsSub headerTerm.data (asciiToLower func.header).data ||
         containsSub searchTerm.data (asciiToLower func.header).data)

/-- `_handleWebviewMessage` for a `search` message: lowercase and trim the
query, filter, post the results. -/
def handleSidebarSearch (query : String) : List LibEntry :=
  sidebarFilter (String.mk (jsTrim (asciiToLower query).data))

/-- The sidebar webview's `performSearch`: trim the raw input; an empty
result shows the `Enter a function name...` prompt (modelled as `none`) and
posts nothing; otherwise the trimmed query is posted to
`_handleWebviewMessage`, whose result list is rendered. -/
def sidebarPerformSearch (input : String) : Option (List LibEntry) :=
  let query := String.mk (jsTrim input.data)
  if query.data.isEmpty then none else some (handleSidebarSearch query)

/-- `handleSearchMessage` of the standalone reference panel: a falsy
(empty) `message.query` is ignored, the lowercased trimmed query is
rejected when empty, otherwise entries match by name, description or header
substring. -/
def handleSearchMessage (query : String) : Option (List LibEntry) :=
  if query.data.isEmpty then none
  else
    let q := String.mk (jsTrim (asciiToLower query).data)
    if q.data.isEmpty then none
    else
      some (LIBRARY_DATABASE.filter fun func =>
        containsSub q.data (asciiToLower func.name).data ||
          containsSub q.data (asciiToLower func.description).data ||
          containsSub q.data (asciiToLower func.header).data)

/-- The panel webview's `performSearch` guard composed with
`handleSearchMessage`. -/
def panelPerformSearch (input : String) : Option (List LibEntry) :=
  let query := String.mk (jsTrim input.data)
  if query.data.isEmpty then none else handleSearchMessage query

theorem dropTrailingWs_eq_nil_iff {l : List Char} :
    dropTrailingWs l = [] ↔ ∀ c ∈ l, jsWs c = true := by
  unfold dropTrailingWs
  rw [List.reverse_eq_nil_iff, List.dropWhile_eq_nil_iff]
  constructor
  · intro h c hc
    exact h c (by simpa using hc)
  · intro h c hc
    exact h c (by simpa using hc)

theorem jsTrim_eq_nil_iff {l : List Char} :
    jsTrim l = [] ↔ ∀ c ∈ l, jsWs c = true := by
  unfold jsTrim
  rw [dropTrailingWs_eq_nil_iff]
  constructor
  · intro h c hc
    rcases List.mem_append.mp
        ((List.takeWhile_append_dropWhile jsWs l) ▸ hc) with h1 | h2
    · exact List.mem_takeWhile_imp h1
    · exact h c h2
  · intro h c hc
    exact h c ((List.dropWhile_sublist _).mem hc)

/-- Lowercasing never touches a whitespace character (the uppercase ASCII
range is disjoint from every JS whitespace code point). -/
theorem toLower_of_jsWs {c : Char} (h : jsWs c = true) : Char.toLower c = c := by
  unfold Char.toLower
  rw [if_neg]
  unfold jsWs at h
  simp only [Bool.or_eq_true, Bool.and_eq_true, decide_eq_true_eq] at h
  rintro ⟨h65, h90⟩
  have h65' : 65 ≤ c.val.toNat := h65
  have h90' : c.val.toNat ≤ 90 := h90
  rcases h with ((((((((((((((h | h) | h) | h) | h) | h) | h) | h) |
    ⟨h1, h2⟩) | h) | h) | h) | h) | h) | h)
  all_goals
    first
    | (have hv : 8192 ≤ c.val.toNat := h1
       omega)
    | (rw [h] at h65'
       exact absurd h65' (by decide))
    | (rw [h] at h90'
       exact absurd h90' (by decide))

/-- C2 counterexample: the sidebar search for `printf` returns three
entries — `printf`, `fprintf` and `sprintf` — because case-insensitive
substring matching on the name also matches `fprintf` and `sprintf`; the
claim's "exactly the single catalog entry named printf" is false. -/
theorem claim_C2_counterexample :
    (handleSidebarSearch "printf").map (fun e => e.name) =
        ["printf", "fprintf", "sprintf"] ∧
      (handleSidebarSearch "printf").length ≠ 1 := by
  decide

/-- C2 (amended): for the query `printf`, search returns exactly the three
catalog entries whose name contains the substring `printf` — `printf`,
`fprintf`, `sprintf` — in catalog order; the match predicate is
case-insensitive substring match against the entry's name or header (the
header clauses match nothing for this query), and the uppercased query
`PRINTF` returns the same result. -/
theorem claim_C2_printf_search :
    (sidebarPerformSearch "printf").map (fun l => l.map (fun e => e.name)) =
        some ["printf", "fprintf", "sprintf"] ∧
      (sidebarPerformSearch "PRINTF").map (fun l => l.map (fun e => e.name)) =
        some ["printf", "fprintf", "sprintf"] ∧
      (∀ e ∈ LIBRARY_DATABASE,
        e ∈ handleSidebarSearch "printf" ↔
          containsSub "printf".data (asciiToLower e.name).data = true) := by
  refine ⟨by decide, by decide, by decide⟩

/-- C7: an empty or whitespace-only query yields the empty/prompt state:
the webview guard renders the prompt and posts no search message (both the
sidebar and the panel pipeline), and the panel's message handler by itself
also rejects a blank query; in particular no full-catalog result set is
posted. -/
theorem claim_C7_blank_query (input : String)
    (h : jsTrim input.data = []) :
    sidebarPerformSearch input = none ∧
      panelPerformSearch input = none ∧
      handleSearchMessage input = none ∧
      sidebarPerformSearch input ≠ some LIBRARY_DATABASE ∧
      panelPerformSearch input ≠ some LIBRARY_DATABASE := by
  have hmsg : handleSearchMessage input = none := by
    have hall : ∀ c ∈ input.data, jsWs c = true := jsTrim_eq_nil_iff.mp h
    have hall2 : jsTrim (asciiToLower input).data = [] := by
      rw [jsTrim_eq_nil_iff]
      intro c hc
      have hdata : (asciiToLower input).data = input.data.map Char.toLower := rfl
      rw [hdata] at hc
      obtain ⟨c', hc', rfl⟩ := List.mem_map.mp hc
      rw [toLower_of_jsWs (hall c' hc')]
      exact hall c' hc'
    unfold handleSearchMessage
    by_cases he : input.data.isEmpty
    · simp [he]
    · simp [he, hall2]
  have hside : sidebarPerformSearch input = none := by
    simp [sidebarPerformSearch, h]
  have hpanel : panelPerformSearch input = none := by
    simp [panelPerformSearch, h]
  refine ⟨hside, hpanel, hmsg, ?_, ?_⟩
  · rw [hside]; intro hc; cases hc
  · rw [hpanel]; intro hc; cases hc

/-- C7 witness: the whitespace-only query `"   "` yields the prompt state
everywhere. -/
theorem claim_C7_blank_query_witness :
    sidebarPerformSearch "   " = none ∧
      panelPerformSearch "   " = none ∧
      handleSearchMessage "   " = none ∧
      sidebarPerformSearch "   " ≠ some LIBRARY_DATABASE ∧
      panelPerformSearch "   " ≠ some LIBRARY_DATABASE :=
  claim_C7_blank_query "   " (by decide)
